import Mathlib

/-!
# Fake News Detector front end (`static/script.js`)

A shallow embedding of the `FakeNewsDetector` controller class: the values it
receives from `JSON.parse`, the DOM fields it writes, its two asynchronous
operations split at their suspension point, and the event loop that drives
them.  Theorems about the embedding follow the definitions.

Conventions of the embedding

* A JavaScript string is a Lean `String` (a sequence of Unicode scalar values;
  lone surrogates are not represented).
* A JavaScript number is represented by the decimal text `Number::toString`
  gives for it (`+0` and `-0` are both `"0"`), which is all the script ever
  does with a number it receives.  Numbers the script computes itself (the
  second count of `timeAgo`, array lengths) are `Int` / `Nat`; they stay far
  below `2^53`, where double arithmetic on integers is exact.
* A method or conversion that can throw returns `Option` (`none` is the throw);
  a method that mutates the DOM and can throw midway returns the DOM reached
  together with a flag telling whether it completed.
* Built-ins of the platform whose tables are not part of the repository
  (`String.prototype.toLowerCase`, the `Date` constructor) are the fields of
  `Engine`; every theorem holds for every engine.
-/

namespace FakeNews

/-! ## Values produced by `response.json()` -/

/-- A value as `JSON.parse` builds it (plus `undefined`, the result of reading a
missing property). An object is its list of own properties, first binding
first. -/
inductive JsVal where
  | undefined : JsVal
  | null : JsVal
  | bool (b : Bool) : JsVal
  | num (text : String) : JsVal
  | str (s : String) : JsVal
  | arr (items : List JsVal) : JsVal
  | obj (fields : List (String × JsVal)) : JsVal

/-- Platform built-ins used by the script. `toLowerCase` is
`String.prototype.toLowerCase`; `dateValue v` is the time value in milliseconds
of the date `new Date(v)` builds when it returns, `none` for an invalid date
(time value `NaN`). -/
structure Engine where
  toLowerCase : String → String
  dateValue : JsVal → Option Int

mutual
/-- The abstract operation `ToString`, as a template literal applies it; `none`
when it throws. On a parsed object `OrdinaryToPrimitive` reads `toString`: an
own property of that name is a parsed value, never callable, and the `valueOf`
tried next gives no primitive either, so the conversion throws a `TypeError`;
without it `Object.prototype.toString` answers. On an array
`Array.prototype.toString` calls `join`. -/
def JsVal.toJsString : JsVal → Option String
  | .undefined => some "undefined"
  | .null => some "null"
  | .bool b => some (if b then "true" else "false")
  | .num t => some t
  | .str s => some s
  | .arr items => JsVal.joinItems items
  | .obj fields =>
    match fields.lookup "toString" with
    | some _ => none
    | none => some "[object Object]"
/-- The method `Array.prototype.join` with the default separator; it throws
when the conversion of an element does. -/
def JsVal.joinItems : List JsVal → Option String
  | [] => some ""
  | [x] => JsVal.elemString x
  | x :: y :: rest =>
    match JsVal.elemString x with
    | none => none
    | some first =>
      match JsVal.joinItems (y :: rest) with
      | none => none
      | some others => some (first ++ "," ++ others)
/-- An element inside `join`: `undefined` and `null` give the empty string,
any other element its `ToString`. -/
def JsVal.elemString : JsVal → Option String
  | .undefined => some ""
  | .null => some ""
  | .bool b => some (if b then "true" else "false")
  | .num t => some t
  | .str s => some s
  | .arr items => JsVal.joinItems items
  | .obj fields =>
    match fields.lookup "toString" with
    | some _ => none
    | none => some "[object Object]"
end

/-- The abstract operation `ToBoolean`. -/
def JsVal.truthy : JsVal → Bool
  | .undefined => false
  | .null => false
  | .bool b => b
  | .num t => !(t == "0" || t == "NaN")
  | .str s => !(s == "")
  | .arr _ => true
  | .obj _ => true

/-- Reading a property of `undefined` or `null` throws a `TypeError`. -/
def JsVal.nullish : JsVal → Bool
  | .undefined => true
  | .null => true
  | _ => false

/-- Number of UTF-16 code units of a string (its `length`). -/
def utf16Length (s : String) : Nat :=
  (s.data.map (fun c => if c.toNat < 65536 then 1 else 2)).sum

/-- The value of `v.key` for `v` not nullish and `key` one of the property names
the script reads (`prediction`, `confidence`, `headline`, `results`, `length`,
`title`, `source`, `url`, `published_at`): an own property of an object, the
`length` of an array or string, `undefined` otherwise. -/
def JsVal.prop (v : JsVal) (key : String) : JsVal :=
  match v with
  | .obj fields => (fields.lookup key).getD .undefined
  | .arr items => if key == "length" then .num (toString items.length) else .undefined
  | .str s => if key == "length" then .num (toString (utf16Length s)) else .undefined
  | _ => .undefined

/-- The property read `v.key`; `none` when it throws. -/
def JsVal.getProp (v : JsVal) (key : String) : Option JsVal :=
  if v.nullish then none else some (v.prop key)

/-- The operator `a || b`. -/
def jsOr (a b : JsVal) : JsVal := if a.truthy then a else b

/-- The call `v.toLowerCase()`: only a string has the method; on any other
value of `JsVal` the call throws. -/
def callToLowerCase (E : Engine) : JsVal → Option String
  | .str s => some (E.toLowerCase s)
  | _ => none

/-! ## `timeAgo` -/

/-- The constructor call `new Date(v)`: `none` when it throws, else the time
value (`none` inside for an invalid date). The constructor first takes the
primitive of `v`, which throws on exactly the values on which `ToString`
throws (an object with an own `toString` property, an array holding one). -/
def newDate (E : Engine) (v : JsVal) : Option (Option Int) :=
  match v.toJsString with
  | none => none
  | some _ => some (E.dateValue v)

/-- The method `timeAgo(date)`, with `now` the time value of the `new Date()` it
reads; `none` when `new Date(date)` throws. `diffInSeconds` is
`Math.floor((now - new Date(date)) / 1000)`; `/` on `Int` with a positive
divisor is the floor. With an invalid date the difference is `NaN`, every
comparison is false and the last line renders it. -/
def timeAgo (E : Engine) (now : Int) (date : JsVal) : Option String :=
  match newDate E date with
  | none => none
  | some none => some "NaN days ago"
  | some (some t) =>
    let diffInSeconds : Int := (now - t) / 1000
    if diffInSeconds < 60 then some "Just now"
    else if diffInSeconds < 3600 then some (toString (diffInSeconds / 60) ++ " minutes ago")
    else if diffInSeconds < 86400 then some (toString (diffInSeconds / 3600) ++ " hours ago")
    else some (toString (diffInSeconds / 86400) ++ " days ago")

/-! ## `escapeHtml` -/

/-- Assigning `v` to `textContent`: the attribute is a nullable string, so
`undefined` and `null` give the empty text, any other value its `ToString`;
`none` when that conversion throws. -/
def toTextContent : JsVal → Option String
  | .undefined => some ""
  | .null => some ""
  | v => v.toJsString

/-- HTML serialisation of one character of a text node. -/
def escapeChar (c : Char) : String :=
  if c = '&' then "&amp;"
  else if c = '<' then "&lt;"
  else if c = '>' then "&gt;"
  else if c.toNat = 160 then "&nbsp;"
  else String.singleton c

/-- HTML serialisation of a text node (`innerHTML` of a `div` holding it). -/
def escapeText (s : String) : String := String.join (s.data.map escapeChar)

/-- The method `escapeHtml(text)`: `div.textContent = text; return div.innerHTML`;
`none` when the assignment throws. -/
def escapeHtml (text : JsVal) : Option String := (toTextContent text).map escapeText

/-! ## `createNewsItem` -/

/-- The inner template of `createNewsItem`: `article.url ? ... : ''`; `none`
when `escapeHtml(article.url)` throws. -/
def linkHtml (url : JsVal) : Option String :=
  if url.truthy then
    match escapeHtml url with
    | none => none
    | some href =>
      some ("\n                    <div style=\"margin-top: 0.5rem;\">\n                        <a href=\""
        ++ href
        ++ "\" target=\"_blank\" rel=\"noopener noreferrer\" style=\"color: #667eea; text-decoration: none; font-size: 0.9rem;\">\n                            <i class=\"fas fa-external-link-alt\"></i> Read full article\n                        </a>\n                    </div>\n                ")
  else some ""

/-- The constant `publishedDate` of `createNewsItem` (line 201):
`article.published_at ? this.timeAgo(article.published_at) : 'Unknown time'`. -/
def publishedDateOf (E : Engine) (now : Int) (article : JsVal) : Option String :=
  if (article.prop "published_at").truthy then timeAgo E now (article.prop "published_at")
  else some "Unknown time"

/-- The method `createNewsItem(article)`, with `now` the clock reading of its
`timeAgo` call. `none` when it throws: in `article.prediction.toLowerCase()`,
in `timeAgo`, or in the conversion to text of a value the template
interpolates or `escapeHtml` receives. -/
def createNewsItem (E : Engine) (now : Int) (article : JsVal) : Option String := do
  let prediction ← article.getProp "prediction"
  let lowered ← callToLowerCase E prediction
  let isFake : Bool := lowered == "fake"
  let publishedDate ← publishedDateOf E now article
  let title : JsVal := jsOr (jsOr (article.prop "title") (article.prop "headline")) (.str "")
  let titleHtml ← escapeHtml title
  let predictionText ← prediction.toJsString
  let confidenceText ← (article.prop "confidence").toJsString
  let sourceHtml ← escapeHtml (jsOr (article.prop "source") (.str ""))
  let link ← linkHtml (article.prop "url")
  pure ("\n            <div class=\"news-item "
    ++ (if isFake then "fake" else "real")
    ++ "\">\n                <div class=\"news-header\">\n                    <h3 class=\"news-title\">"
    ++ titleHtml
    ++ "</h3>\n                    <div class=\"news-prediction\">\n                        <span class=\"badge "
    ++ (if isFake then "fake" else "real")
    ++ "\">"
    ++ predictionText
    ++ "</span>\n                        <span class=\"confidence\">"
    ++ confidenceText
    ++ "%</span>\n                    </div>\n                </div>\n                <div class=\"news-meta\">\n                    <span class=\"news-source\">\n                        <i class=\"fas fa-newspaper\"></i> "
    ++ sourceHtml
    ++ "\n                    </span>\n                    <span class=\"news-time\">\n                        <i class=\"fas fa-clock\"></i> "
    ++ publishedDate
    ++ "\n                    </span>\n                </div>\n                "
    ++ link
    ++ "\n            </div>\n        ")

/-- Whether every conversion to text that `createNewsItem` makes on the article
returns: the title shown, the confidence, the source shown, and `published_at`
and `url` when truthy. -/
def rendersAsText (article : JsVal) : Bool :=
  (toTextContent (jsOr (jsOr (article.prop "title") (article.prop "headline")) (.str ""))).isSome
    && ((article.prop "confidence").toJsString).isSome
    && (toTextContent (jsOr (article.prop "source") (.str ""))).isSome
    && (!(article.prop "published_at").truthy || ((article.prop "published_at").toJsString).isSome)
    && (!(article.prop "url").truthy || (toTextContent (article.prop "url")).isSome)

/-- Decimal digits to a number, `none` on any other character. -/
def parseDigits : List Char → Nat → Option Nat
  | [], acc => some acc
  | c :: rest, acc =>
    if c.isDigit then parseDigits rest (10 * acc + (c.toNat - 48)) else none

/-- A sample engine for evaluating the definitions on concrete inputs: ASCII
lower-casing (what `toLowerCase` does on ASCII text) and dates given as
non-negative millisecond numbers. -/
def sampleEngine : Engine where
  toLowerCase := fun s => String.mk (s.data.map Char.toLower)
  dateValue := fun v =>
    match v with
    | .num t => if t.data = [] then none else (parseDigits t.data 0).map Int.ofNat
    | _ => none

/-! ## The view -/

/-- One call of `showToast(message, type)`: the element it appends to the toast
container has class `toast <type>` and shows `message`. -/
structure Toast where
  message : String
  kind : String
deriving DecidableEq

/-- The `className` of the element `showToast` creates. -/
def Toast.className (t : Toast) : String := "toast " ++ t.kind

/-- The DOM fields the controller reads or writes, one field per property the
script touches. `innerHTML`, `textContent`, `className` and `style` fields hold
the string last assigned to them (what the browser makes of that string is not
part of the script); `toasts` is the list of toasts appended to the toast
container so far, oldest first (their removal by the 5 s timer of `showToast` is
left out). -/
structure View where
  headlineInputValue : String
  analyzeBtnDisabled : Bool
  analyzeBtnHtml : String
  fetchNewsBtnDisabled : Bool
  fetchNewsBtnHtml : String
  analysisResultDisplay : String
  predictionBadgeText : String
  predictionBadgeClass : String
  confidenceScoreText : String
  analyzedHeadlineText : String
  confidenceFillWidth : String
  confidenceFillBackground : String
  newsListHtml : String
  newsLoadingDisplay : String
  newsCountText : String
  toasts : List Toast
deriving DecidableEq

/-- A request handed to `fetch`. -/
inductive Request where
  | predict (headline : String) : Request
  | analyzeLive : Request
deriving DecidableEq

/-- What comes back for a request: `fetch` rejects, or it resolves with a
response of some HTTP status whose `json()` resolves with a value (`some`) or
rejects (`none`). -/
inductive FetchResult where
  | networkError : FetchResult
  | response (status : Nat) (body : Option JsVal) : FetchResult

/-- The getter `response.ok`: the status is in the range 200 to 299. -/
def responseOk (status : Nat) : Bool := decide (200 ≤ status) && decide (status ≤ 299)

/-- The method `showToast(message, type)`: `toastContainer.appendChild(toast)`. -/
def showToast (v : View) (message type : String) : View :=
  { v with toasts := v.toasts ++ [{ message := message, kind := type }] }

/-! ## `String.prototype.trim` -/

/-- The code points `trim` strips: ECMAScript WhiteSpace and LineTerminator. -/
def isJsWhiteSpace (c : Char) : Bool :=
  let n := c.toNat
  n == 9 || n == 10 || n == 11 || n == 12 || n == 13 || n == 32 || n == 160
    || n == 5760 || (decide (8192 ≤ n) && decide (n ≤ 8202)) || n == 8232 || n == 8233
    || n == 8239 || n == 8287 || n == 12288 || n == 65279

/-- The method `trim()`. -/
def jsTrim (s : String) : String :=
  String.mk ((s.data.dropWhile isJsWhiteSpace).reverse.dropWhile isJsWhiteSpace).reverse

/-! ## `analyzeHeadline` -/

def analyzingLabel : String := "<i class=\"fas fa-spinner fa-spin\"></i> Analyzing..."

def analyzeLabel : String := "<i class=\"fas fa-search\"></i> Analyze Headline"

def fakeGradient : String := "linear-gradient(90deg, #ff6b6b, #ee5a24)"

def realGradient : String := "linear-gradient(90deg, #51cf66, #40c057)"

/-- The method `displayAnalysisResult(data)`, statement by statement. The flag
is `false` when it throws, with the view as the statements before the throw
left it: in `data.prediction.toLowerCase()` (line 135) after the panel was
shown, in the template of line 140 after the badge was written, in the
assignment of line 143 after the confidence text was written. -/
def displayAnalysisResult (E : Engine) (v : View) (data : JsVal) : View × Bool :=
  let v1 : View := { v with analysisResultDisplay := "block" }
  match data.getProp "prediction" with
  | none => (v1, false)
  | some prediction =>
    match callToLowerCase E prediction with
    | none => (v1, false)
    | some lowered =>
      let isFake : Bool := lowered == "fake"
      match toTextContent prediction with
      | none => (v1, false)
      | some badgeText =>
        let v2 : View :=
          { v1 with
            predictionBadgeText := badgeText
            predictionBadgeClass := "badge " ++ (if isFake then "fake" else "real") }
        match (data.prop "confidence").toJsString with
        | none => (v2, false)
        | some confidence =>
          let v3 : View := { v2 with confidenceScoreText := confidence ++ "% confidence" }
          match toTextContent (data.prop "headline") with
          | none => (v3, false)
          | some headline =>
            ({ v3 with
                analyzedHeadlineText := headline
                confidenceFillWidth := confidence ++ "%"
                confidenceFillBackground := if isFake then fakeGradient else realGradient },
              true)

/-- The method `analyzeHeadline()` up to its first `await`: the validation, and
for a headline that passes it the busy button and the request. -/
def analyzeHeadlineStart (v : View) : View × Option Request :=
  let headline := jsTrim v.headlineInputValue
  if headline = "" then
    (showToast v "Please enter a headline to analyze" "error", none)
  else
    ({ v with analyzeBtnDisabled := true, analyzeBtnHtml := analyzingLabel },
      some (.predict headline))

/-- The `try` block of `analyzeHeadline()` after the request was sent; the flag
is `false` when it throws. -/
def analyzeHeadlineTry (E : Engine) (v : View) : FetchResult → View × Bool
  | .networkError => (v, false)
  | .response status body =>
    if !(responseOk status) then (v, false)
    else
      match body with
      | none => (v, false)
      | some data =>
        let shown := displayAnalysisResult E v data
        if shown.2 then (showToast shown.1 "Analysis completed successfully" "success", true)
        else (shown.1, false)

/-- The method `analyzeHeadline()` from the arrival of the answer on: the rest
of `try`, then `catch` when it threw, then `finally`. -/
def analyzeHeadlineResume (E : Engine) (v : View) (r : FetchResult) : View :=
  let tried := analyzeHeadlineTry E v r
  let caught : View :=
    if tried.2 then tried.1
    else showToast tried.1 "Error analyzing headline. Please try again." "error"
  { caught with analyzeBtnDisabled := false, analyzeBtnHtml := analyzeLabel }

/-- One whole invocation of `analyzeHeadline()` with nothing else running in
between; `r` is the answer to its request, unused when none is sent. -/
def analyzeHeadline (E : Engine) (v : View) (r : FetchResult) : View :=
  match analyzeHeadlineStart v with
  | (v1, none) => v1
  | (v1, some _) => analyzeHeadlineResume E v1 r

/-! ## `fetchRealTimeNews` -/

def fetchingLabel : String := "<i class=\"fas fa-spinner fa-spin\"></i> Fetching..."

def fetchLabel : String := "<i class=\"fas fa-refresh\"></i> Fetch Latest News"

def noNewsHtml : String := "<div class=\"loading\"><p>No news articles available</p></div>"

def failedNewsHtml : String := "<div class=\"loading\"><p>Failed to load news articles</p></div>"

/-- The test `articles.length === 0` on a value that is not nullish. -/
def lengthIsZero : JsVal → Bool
  | .arr items => items.isEmpty
  | .str s => s == ""
  | .obj fields =>
    match fields.lookup "length" with
    | some (.num t) => t == "0"
    | _ => false
  | _ => false

/-- The call `articles.map(article => this.createNewsItem(article))` on a list:
`clock i` is the time the call for the item at index `i` reads; a throwing call
ends the whole `map`. -/
def mapNewsItems (E : Engine) (clock : Nat → Int) : Nat → List JsVal → Option (List String)
  | _, [] => some []
  | i, article :: rest =>
    match createNewsItem E (clock i) article with
    | none => none
    | some html =>
      match mapNewsItems E clock (i + 1) rest with
      | none => none
      | some htmls => some (html :: htmls)

/-- The method `displayNews(articles)`. Only an array has `map`; the flag is
`false` when `map` or a `createNewsItem` call throws, before any assignment. -/
def displayNews (E : Engine) (clock : Nat → Int) (v : View) (articles : JsVal) : View × Bool :=
  if !articles.truthy || lengthIsZero articles then
    ({ v with newsListHtml := noNewsHtml }, true)
  else
    match articles with
    | .arr items =>
      match mapNewsItems E clock 0 items with
      | some htmls => ({ v with newsListHtml := String.join htmls }, true)
      | none => (v, false)
    | _ => (v, false)

/-- The method `updateNewsCount(count)`; `none` when its template throws. -/
def updateNewsCount (v : View) (count : JsVal) : Option View :=
  match count.toJsString with
  | none => none
  | some text => some { v with newsCountText := text ++ " articles analyzed" }

/-- The method `fetchRealTimeNews()` up to its first `await`. -/
def fetchRealTimeNewsStart (v : View) : View × Request :=
  ({ v with
      fetchNewsBtnDisabled := true
      fetchNewsBtnHtml := fetchingLabel
      newsLoadingDisplay := "block"
      newsListHtml := "" }, .analyzeLive)

/-- The `try` block of `fetchRealTimeNews()` after the request was sent; the
flag is `false` when it throws. -/
def fetchRealTimeNewsTry (E : Engine) (clock : Nat → Int) (v : View) : FetchResult → View × Bool
  | .networkError => (v, false)
  | .response status body =>
    if !(responseOk status) then (v, false)
    else
      match body with
      | none => (v, false)
      | some data =>
        match data.getProp "results" with
        | none => (v, false)
        | some results =>
          let shown := displayNews E clock v results
          if !shown.2 then (shown.1, false)
          else
            match results.getProp "length" with
            | none => (shown.1, false)
            | some len =>
              match updateNewsCount shown.1 len with
              | none => (shown.1, false)
              | some counted =>
                match len.toJsString with
                | none => (counted, false)
                | some n =>
                  (showToast counted ("Fetched and analyzed " ++ n ++ " news articles")
                    "success", true)

/-- The method `fetchRealTimeNews()` from the arrival of the answer on. -/
def fetchRealTimeNewsResume (E : Engine) (clock : Nat → Int) (v : View) (r : FetchResult) : View :=
  let tried := fetchRealTimeNewsTry E clock v r
  let caught : View :=
    if tried.2 then tried.1
    else
      { showToast tried.1 "Error fetching news. Please try again." "error" with
        newsListHtml := failedNewsHtml }
  { caught with
    newsLoadingDisplay := "none"
    fetchNewsBtnDisabled := false
    fetchNewsBtnHtml := fetchLabel }

/-- One whole invocation of `fetchRealTimeNews()` with nothing else running in
between. -/
def fetchRealTimeNews (E : Engine) (clock : Nat → Int) (v : View) (r : FetchResult) : View :=
  fetchRealTimeNewsResume E clock (fetchRealTimeNewsStart v).1 r

/-! ## The event loop -/

/-- The controller between two events: the view, the requests sent and not yet
answered (oldest first), and whether the one-shot timer of `fetchNewsOnLoad`
is still to fire. -/
structure App where
  view : View
  inFlight : List Request
  loadTimerPending : Bool

/-- The constructor: `initializeElements()`, `bindEvents()`, then
`fetchNewsOnLoad()`, which arms the timer. -/
def construct (page : View) : App :=
  { view := page, inFlight := [], loadTimerPending := true }

/-- What the event loop can deliver to the controller. `answer i r clock` is the
arrival of the answer `r` to the request at index `i` of `inFlight`. -/
inductive Event where
  | input (text : String) : Event
  | clickAnalyze : Event
  | clickFetch : Event
  | keydown (key : String) (shiftKey : Bool) : Event
  | loadTimer : Event
  | answer (i : Nat) (r : FetchResult) (clock : Nat → Int) : Event

/-- A call of `analyzeHeadline()` by a listener, up to its `await`. -/
def callAnalyzeHeadline (a : App) : App :=
  match analyzeHeadlineStart a.view with
  | (v1, none) => { a with view := v1 }
  | (v1, some req) => { a with view := v1, inFlight := a.inFlight ++ [req] }

/-- A call of `fetchRealTimeNews()` by a listener or the timer, up to its
`await`. -/
def callFetchRealTimeNews (a : App) : App :=
  { a with
    view := (fetchRealTimeNewsStart a.view).1
    inFlight := a.inFlight ++ [(fetchRealTimeNewsStart a.view).2] }

/-- One turn of the event loop with the listeners of `bindEvents` and the timer
of `fetchNewsOnLoad`; `none` when the event cannot occur in that state (the
browser sends no click to a disabled button, the timer fires once, an answer
needs its request). -/
def step (E : Engine) (a : App) : Event → Option App
  | .input text => some { a with view := { a.view with headlineInputValue := text } }
  | .clickAnalyze => if a.view.analyzeBtnDisabled then none else some (callAnalyzeHeadline a)
  | .clickFetch => if a.view.fetchNewsBtnDisabled then none else some (callFetchRealTimeNews a)
  | .keydown key shiftKey =>
    if key = "Enter" ∧ shiftKey = false then some (callAnalyzeHeadline a) else some a
  | .loadTimer =>
    if a.loadTimerPending then some (callFetchRealTimeNews { a with loadTimerPending := false })
    else none
  | .answer i r clock =>
    match a.inFlight[i]? with
    | none => none
    | some (.predict _) =>
      some { a with view := analyzeHeadlineResume E a.view r, inFlight := a.inFlight.eraseIdx i }
    | some .analyzeLive =>
      some { a with
        view := fetchRealTimeNewsResume E clock a.view r
        inFlight := a.inFlight.eraseIdx i }

/-- A sequence of turns; `none` as soon as one cannot occur. -/
def run (E : Engine) : App → List Event → Option App
  | a, [] => some a
  | a, e :: rest =>
    match step E a e with
    | none => none
    | some a1 => run E a1 rest

/-- Number of `/predict` requests sent and not yet answered. -/
def outstandingPredict (a : App) : Nat :=
  (a.inFlight.filter (fun r => match r with
    | .predict _ => true
    | .analyzeLive => false)).length

/-- Number of `/analyze-live` requests sent and not yet answered. -/
def outstandingAnalyzeLive (a : App) : Nat :=
  (a.inFlight.filter (fun r => match r with
    | .predict _ => false
    | .analyzeLive => true)).length

/-- A page before any interaction: empty fields, both buttons enabled with their
idle labels, result panel and loading indicator hidden. -/
def blankView : View where
  headlineInputValue := ""
  analyzeBtnDisabled := false
  analyzeBtnHtml := analyzeLabel
  fetchNewsBtnDisabled := false
  fetchNewsBtnHtml := fetchLabel
  analysisResultDisplay := "none"
  predictionBadgeText := ""
  predictionBadgeClass := ""
  confidenceScoreText := ""
  analyzedHeadlineText := ""
  confidenceFillWidth := ""
  confidenceFillBackground := ""
  newsListHtml := ""
  newsLoadingDisplay := "none"
  newsCountText := ""
  toasts := []

/-- Whether `needle` occurs in `hay` as a contiguous run of characters. -/
def occursIn (needle hay : String) : Bool :=
  hay.data.tails.any (fun t => needle.data.isPrefixOf t)

/-- The events that reach an operation without passing through its button: Enter
without Shift in the headline field, and the load timer. -/
def Event.bypassesButton : Event → Bool
  | .keydown key shiftKey => decide (key = "Enter" ∧ shiftKey = false)
  | .loadTimer => true
  | _ => false

/-- Each operation has at most one request unanswered, and its button is
disabled while it has one. -/
def ButtonGuard (a : App) : Prop :=
  (outstandingPredict a = 0 ∨ (outstandingPredict a = 1 ∧ a.view.analyzeBtnDisabled = true)) ∧
  (outstandingAnalyzeLive a = 0 ∨
    (outstandingAnalyzeLive a = 1 ∧ a.view.fetchNewsBtnDisabled = true))

/-- The fields of the result panel: visibility, badge text and class,
confidence text, headline text, bar width and colour. -/
def resultPanel (v : View) : String × String × String × String × String × String × String :=
  (v.analysisResultDisplay, v.predictionBadgeText, v.predictionBadgeClass,
    v.confidenceScoreText, v.analyzedHeadlineText, v.confidenceFillWidth,
    v.confidenceFillBackground)

/-! ## Theorems -/

set_option maxRecDepth 8000

/-- The `/` of `Int` used in `timeAgo` is `Math.floor` of the quotient. -/
theorem div_eq_floor (a b : Int) (hb : 0 < b) : a / b = Int.fdiv a b :=
  (Int.fdiv_eq_ediv a (le_of_lt hb)).symm

/-- A string of white space trims to the empty string. -/
theorem jsTrim_blank (s : String) (h : ∀ c ∈ s.data, isJsWhiteSpace c = true) :
    jsTrim s = "" := by
  have h1 : s.data.dropWhile isJsWhiteSpace = [] := by
    rw [List.dropWhile_eq_nil_iff]
    exact h
  simp [jsTrim, h1]

/-- `occursIn` decides the infix relation on the characters. -/
theorem occursIn_iff (n h : String) : occursIn n h = true ↔ n.data <:+: h.data := by
  unfold occursIn
  simp only [List.any_eq_true, List.mem_tails, List.isPrefixOf_iff_prefix,
    List.infix_iff_prefix_suffix]
  constructor
  · rintro ⟨t, ht, hn⟩
    exact ⟨t, hn, ht⟩
  · rintro ⟨t, hn, ht⟩
    exact ⟨t, ht, hn⟩

/-- C1: `timeAgo` depends on its two times only through the whole-second delta
`d = floor((now - publishedAt) / 1000)`: `d < 60` gives "Just now", `60 <= d <
3600` gives "floor(d/60) minutes ago", `3600 <= d < 86400` gives "floor(d/3600)
hours ago", `d >= 86400` gives "floor(d/86400) days ago", always with the plural
word (60 s gives "1 minutes ago"); so 45 s, 300 s, 10800 s and 172800 s give
"Just now", "5 minutes ago", "3 hours ago" and "2 days ago". Here `t` is the
time value of the date `new Date(date)` builds. -/
theorem timeAgo_by_delta (E : Engine) (now t : Int) (date : JsVal)
    (hdate : newDate E date = some (some t)) (d : Int) (hd : d = Int.fdiv (now - t) 1000) :
    (d < 60 → timeAgo E now date = some "Just now") ∧
    (60 ≤ d → d < 3600 →
      timeAgo E now date = some (toString (Int.fdiv d 60) ++ " minutes ago")) ∧
    (3600 ≤ d → d < 86400 →
      timeAgo E now date = some (toString (Int.fdiv d 3600) ++ " hours ago")) ∧
    (86400 ≤ d → timeAgo E now date = some (toString (Int.fdiv d 86400) ++ " days ago")) ∧
    (d = 45 → timeAgo E now date = some "Just now") ∧
    (d = 60 → timeAgo E now date = some "1 minutes ago") ∧
    (d = 300 → timeAgo E now date = some "5 minutes ago") ∧
    (d = 10800 → timeAgo E now date = some "3 hours ago") ∧
    (d = 172800 → timeAgo E now date = some "2 days ago") := by
  rw [← div_eq_floor _ _ (by norm_num)] at hd
  simp only [← div_eq_floor _ (60 : Int) (by norm_num),
    ← div_eq_floor _ (3600 : Int) (by norm_num), ← div_eq_floor _ (86400 : Int) (by norm_num)]
  have key : timeAgo E now date =
      if d < 60 then some "Just now"
      else if d < 3600 then some (toString (d / 60) ++ " minutes ago")
      else if d < 86400 then some (toString (d / 3600) ++ " hours ago")
      else some (toString (d / 86400) ++ " days ago") := by
    simp only [timeAgo, hdate, hd]
  rw [key]
  refine ⟨?_, ?_, ?_, ?_, ?_, ?_, ?_, ?_, ?_⟩
  · intro h
    simp [h]
  · intro h1 h2
    simp [not_lt.mpr h1, h2]
  · intro h1 h2
    have h0 : ¬ d < 60 := by omega
    simp [h0, not_lt.mpr h1, h2]
  · intro h1
    have h0 : ¬ d < 60 := by omega
    have h2 : ¬ d < 3600 := by omega
    simp [h0, h2, not_lt.mpr h1]
  · intro h
    subst h
    rfl
  · intro h
    subst h
    rfl
  · intro h
    subst h
    rfl
  · intro h
    subst h
    rfl
  · intro h
    subst h
    rfl

/-- Instance of `timeAgo_by_delta`: two days after the epoch, a date at the
epoch. -/
theorem timeAgo_by_delta_witness :
    newDate sampleEngine (.num "0") = some (some 0) ∧
    (172800 : Int) = Int.fdiv (172800000 - 0) 1000 ∧
    timeAgo sampleEngine 172800000 (.num "0") = some "2 days ago" :=
  ⟨by decide, by decide,
    (timeAgo_by_delta sampleEngine 172800000 0 (.num "0") (by decide) 172800
      (by decide)).2.2.2.2.2.2.2.2 rfl⟩

/-- C2: when the headline field is empty or holds only white space,
`analyzeHeadline` sends no request and changes nothing but the toast list, to
which it appends exactly one toast, of kind error: the analyze button and the
displayed result are as before. -/
theorem analyzeHeadline_blank_input (E : Engine) (v : View) (r : FetchResult)
    (hblank : ∀ c ∈ v.headlineInputValue.data, isJsWhiteSpace c = true) :
    (analyzeHeadlineStart v).2 = none ∧
    analyzeHeadline E v r =
      { v with toasts := v.toasts ++
          [{ message := "Please enter a headline to analyze", kind := "error" }] } := by
  have ht : jsTrim v.headlineInputValue = "" := jsTrim_blank _ hblank
  simp [analyzeHeadline, analyzeHeadlineStart, ht, showToast]

/-- Instance of `analyzeHeadline_blank_input`: a headline of a space, a tab and
a line feed on the blank page. -/
theorem analyzeHeadline_blank_input_witness :
    (∀ c ∈ ({ blankView with headlineInputValue := " \t\n" } : View).headlineInputValue.data,
      isJsWhiteSpace c = true) ∧
    (analyzeHeadlineStart { blankView with headlineInputValue := " \t\n" }).2 = none ∧
    (analyzeHeadline sampleEngine { blankView with headlineInputValue := " \t\n" }
      FetchResult.networkError).toasts =
      [{ message := "Please enter a headline to analyze", kind := "error" }] := by
  have hb : ∀ c ∈ ({ blankView with headlineInputValue := " \t\n" } : View).headlineInputValue.data,
      isJsWhiteSpace c = true := by decide
  have h := analyzeHeadline_blank_input sampleEngine
    { blankView with headlineInputValue := " \t\n" } FetchResult.networkError hb
  refine ⟨hb, h.1, ?_⟩
  rw [h.2]
  rfl

/-- C3 (counterexample): an answer of status 200 with prediction "FAKE",
confidence 87.5 and the headline `{"toString": 1}` over a bar that was 40% wide.
The assignment of line 143 throws before line 146 is reached: the bar keeps its
40%, not "87.5%", and the invocation ends with the error toast. -/
theorem displayAnalysisResult_headline_throws :
    responseOk 200 = true ∧
    (JsVal.obj [("prediction", .str "FAKE"), ("confidence", .num "87.5"),
      ("headline", .obj [("toString", .num "1")])]).getProp "prediction" = some (.str "FAKE") ∧
    (JsVal.obj [("prediction", .str "FAKE"), ("confidence", .num "87.5"),
      ("headline", .obj [("toString", .num "1")])]).prop "confidence" = .num "87.5" ∧
    (analyzeHeadlineResume sampleEngine { blankView with confidenceFillWidth := "40%" }
      (.response 200 (some (.obj [("prediction", .str "FAKE"), ("confidence", .num "87.5"),
        ("headline", .obj [("toString", .num "1")])])))).confidenceFillWidth = "40%" ∧
    (analyzeHeadlineResume sampleEngine { blankView with confidenceFillWidth := "40%" }
      (.response 200 (some (.obj [("prediction", .str "FAKE"), ("confidence", .num "87.5"),
        ("headline", .obj [("toString", .num "1")])])))).confidenceFillWidth ≠ "87.5%" ∧
    (analyzeHeadlineResume sampleEngine { blankView with confidenceFillWidth := "40%" }
      (.response 200 (some (.obj [("prediction", .str "FAKE"), ("confidence", .num "87.5"),
        ("headline", .obj [("toString", .num "1")])])))).toasts =
      [{ message := "Error analyzing headline. Please try again.", kind := "error" }] :=
  ⟨by decide, rfl, rfl, rfl, by decide, rfl⟩

/-- With a string prediction, a numeric confidence and a headline that converts
to text, `displayAnalysisResult` runs to its end and writes every field. -/
theorem displayAnalysisResult_completes (E : Engine) (v : View) (data : JsVal)
    (P C H : String) (hP : data.getProp "prediction" = some (.str P))
    (hC : data.prop "confidence" = .num C)
    (hH : toTextContent (data.prop "headline") = some H) :
    displayAnalysisResult E v data =
      ({ v with
          analysisResultDisplay := "block"
          predictionBadgeText := P
          predictionBadgeClass := "badge " ++ (if E.toLowerCase P = "fake" then "fake" else "real")
          confidenceScoreText := C ++ "% confidence"
          analyzedHeadlineText := H
          confidenceFillWidth := C ++ "%"
          confidenceFillBackground :=
            if E.toLowerCase P = "fake" then fakeGradient else realGradient }, true) := by
  have hPt : toTextContent (.str P) = some P := rfl
  have hCt : (JsVal.num C).toJsString = some C := by simp [JsVal.toJsString]
  simp only [displayAnalysisResult, hP, callToLowerCase, hPt, hC, hCt, hH]
  simp

/-- C3 (amended): for an answer with an ok status whose body carries the
prediction string `P`, the confidence `C` and a headline whose conversion to
text returns, `displayAnalysisResult` completes, the bar width is exactly "C%",
the badge class is "badge fake" when `P` lower-cased equals "fake" and "badge
real" otherwise (never both, never neither), and the bar colour follows the
same choice. -/
theorem displayAnalysisResult_bar_and_badge (E : Engine) (v : View) (status : Nat)
    (data : JsVal) (P C H : String) (hok : responseOk status = true)
    (hP : data.getProp "prediction" = some (.str P))
    (hC : data.prop "confidence" = .num C)
    (hH : toTextContent (data.prop "headline") = some H) :
    (displayAnalysisResult E v data).2 = true ∧
    (analyzeHeadlineResume E v (.response status (some data))).confidenceFillWidth = C ++ "%" ∧
    ((analyzeHeadlineResume E v (.response status (some data))).predictionBadgeClass
        = "badge fake" ↔ E.toLowerCase P = "fake") ∧
    ((analyzeHeadlineResume E v (.response status (some data))).predictionBadgeClass
        = "badge real" ↔ E.toLowerCase P ≠ "fake") ∧
    ((analyzeHeadlineResume E v (.response status (some data))).confidenceFillBackground
        = fakeGradient ↔ E.toLowerCase P = "fake") ∧
    ((analyzeHeadlineResume E v (.response status (some data))).confidenceFillBackground
        = realGradient ↔ E.toLowerCase P ≠ "fake") ∧
    (analyzeHeadlineResume E v (.response status (some data))).toasts =
      v.toasts ++ [{ message := "Analysis completed successfully", kind := "success" }] := by
  have hfr : fakeGradient ≠ realGradient := by decide
  have hbr : ("badge fake" : String) ≠ "badge real" := by decide
  have hdone := displayAnalysisResult_completes E v data P C H hP hC hH
  by_cases hlow : E.toLowerCase P = "fake"
  · simp [analyzeHeadlineResume, analyzeHeadlineTry, hdone, hok, showToast, hlow, hfr, hbr]
  · simp [analyzeHeadlineResume, analyzeHeadlineTry, hdone, hok, showToast, hlow, hfr.symm,
      hbr.symm]

/-- Instance of `displayAnalysisResult_bar_and_badge`: status 200, prediction
"FAKE", confidence 87.5, headline "x". -/
theorem displayAnalysisResult_bar_and_badge_witness :
    responseOk 200 = true ∧
    toTextContent ((JsVal.obj [("prediction", .str "FAKE"), ("confidence", .num "87.5"),
      ("headline", .str "x")]).prop "headline") = some "x" ∧
    (analyzeHeadlineResume sampleEngine blankView
      (.response 200 (some (.obj [("prediction", .str "FAKE"), ("confidence", .num "87.5"),
        ("headline", .str "x")])))).confidenceFillWidth = "87.5%" :=
  ⟨by decide, rfl,
    (displayAnalysisResult_bar_and_badge sampleEngine blankView 200
      (.obj [("prediction", .str "FAKE"), ("confidence", .num "87.5"), ("headline", .str "x")])
      "FAKE" "87.5" "x" (by decide) rfl rfl rfl).2.1⟩

/-- C6: an invocation of `analyzeHeadline` whose headline passes the validation,
and any invocation of `fetchRealTimeNews`, ends with its button enabled and
showing its idle label whatever the answer was (network error, any status, a
body that does not parse, a body on which rendering throws, a good body);
`fetchRealTimeNews` also ends with the loading indicator hidden. The same holds
when the invocation resumes in any view `w` other events left behind. -/
theorem trigger_restored_on_every_exit (E : Engine) (clock : Nat → Int) (v : View)
    (r : FetchResult) (hvalid : jsTrim v.headlineInputValue ≠ "") :
    (analyzeHeadlineStart v).2 = some (.predict (jsTrim v.headlineInputValue)) ∧
    (analyzeHeadline E v r).analyzeBtnDisabled = false ∧
    (analyzeHeadline E v r).analyzeBtnHtml = analyzeLabel ∧
    (fetchRealTimeNews E clock v r).fetchNewsBtnDisabled = false ∧
    (fetchRealTimeNews E clock v r).fetchNewsBtnHtml = fetchLabel ∧
    (fetchRealTimeNews E clock v r).newsLoadingDisplay = "none" ∧
    (∀ w : View, (analyzeHeadlineResume E w r).analyzeBtnDisabled = false ∧
      (analyzeHeadlineResume E w r).analyzeBtnHtml = analyzeLabel ∧
      (fetchRealTimeNewsResume E clock w r).fetchNewsBtnDisabled = false ∧
      (fetchRealTimeNewsResume E clock w r).fetchNewsBtnHtml = fetchLabel ∧
      (fetchRealTimeNewsResume E clock w r).newsLoadingDisplay = "none") := by
  simp [analyzeHeadline, analyzeHeadlineStart, hvalid, analyzeHeadlineResume,
    fetchRealTimeNews, fetchRealTimeNewsResume]

/-- Instance of `trigger_restored_on_every_exit`: headline "x", the network
fails. -/
theorem trigger_restored_on_every_exit_witness :
    jsTrim ({ blankView with headlineInputValue := "x" } : View).headlineInputValue ≠ "" ∧
    (analyzeHeadline sampleEngine { blankView with headlineInputValue := "x" }
      FetchResult.networkError).analyzeBtnDisabled = false :=
  ⟨by decide,
    (trigger_restored_on_every_exit sampleEngine (fun _ => 0)
      { blankView with headlineInputValue := "x" } FetchResult.networkError (by decide)).2.1⟩

/-- The method `timeAgo` returns on every date whose conversion to text
returns. -/
theorem timeAgo_returns (E : Engine) (now : Int) (date : JsVal)
    (h : (date.toJsString).isSome = true) : ∃ text, timeAgo E now date = some text := by
  obtain ⟨txt, htxt⟩ := Option.isSome_iff_exists.mp h
  unfold timeAgo newDate
  rw [htxt]
  cases E.dateValue date with
  | none => exact ⟨_, rfl⟩
  | some t =>
    simp only
    split
    · exact ⟨_, rfl⟩
    · split
      · exact ⟨_, rfl⟩
      · split
        · exact ⟨_, rfl⟩
        · exact ⟨_, rfl⟩

/-- With a string prediction and fields that convert to text, `createNewsItem`
returns. -/
theorem createNewsItem_returns (E : Engine) (now : Int) (article : JsVal) (p : String)
    (hp : article.getProp "prediction" = some (.str p))
    (hr : rendersAsText article = true) :
    ∃ html, createNewsItem E now article = some html := by
  simp only [rendersAsText, Bool.and_eq_true, Bool.or_eq_true, Bool.not_eq_true'] at hr
  obtain ⟨⟨⟨⟨htitle, hconf⟩, hsource⟩, hpub⟩, hurl⟩ := hr
  obtain ⟨titleText, htitle⟩ := Option.isSome_iff_exists.mp htitle
  obtain ⟨confText, hconf⟩ := Option.isSome_iff_exists.mp hconf
  obtain ⟨sourceText, hsource⟩ := Option.isSome_iff_exists.mp hsource
  have hdate : ∃ text, publishedDateOf E now article = some text := by
    unfold publishedDateOf
    by_cases ht : (article.prop "published_at").truthy = true
    · rw [if_pos ht]
      rcases hpub with hf | hs
      · rw [hf] at ht
        exact absurd ht (by decide)
      · exact timeAgo_returns E now _ hs
    · rw [if_neg ht]
      exact ⟨_, rfl⟩
  have hlink : ∃ link, linkHtml (article.prop "url") = some link := by
    unfold linkHtml
    by_cases ht : (article.prop "url").truthy = true
    · rw [if_pos ht]
      rcases hurl with hf | hs
      · rw [hf] at ht
        exact absurd ht (by decide)
      · obtain ⟨urlText, hurlText⟩ := Option.isSome_iff_exists.mp hs
        simp only [escapeHtml, hurlText, Option.map_some']
        exact ⟨_, rfl⟩
    · rw [if_neg ht]
      exact ⟨_, rfl⟩
  obtain ⟨dateText, hdate⟩ := hdate
  obtain ⟨link, hlink⟩ := hlink
  have hpred : (JsVal.str p).toJsString = some p := by simp [JsVal.toJsString]
  have hsome : (createNewsItem E now article).isSome = true := by
    simp [createNewsItem, hp, callToLowerCase, hdate, escapeHtml, htitle, hpred, hconf,
      hsource, hlink]
  exact Option.isSome_iff_exists.mp hsome

/-- The method `timeAgo` throws on every date whose conversion to text throws. -/
theorem timeAgo_throws (E : Engine) (now : Int) (date : JsVal)
    (h : date.toJsString = none) : timeAgo E now date = none := by
  simp [timeAgo, newDate, h]

/-- When a conversion to text that `createNewsItem` makes throws, so does
`createNewsItem`: the condition `rendersAsText` is the exact one. -/
theorem createNewsItem_throws (E : Engine) (now : Int) (article : JsVal)
    (hr : rendersAsText article = false) : createNewsItem E now article = none := by
  cases hp : article.getProp "prediction" with
  | none => simp [createNewsItem, hp]
  | some prediction =>
    cases hlow : callToLowerCase E prediction with
    | none => simp [createNewsItem, hp, hlow]
    | some lowered =>
      cases hdate : publishedDateOf E now article with
      | none => simp [createNewsItem, hp, hlow, hdate]
      | some dateText =>
        cases htitle : toTextContent
            (jsOr (jsOr (article.prop "title") (article.prop "headline")) (.str "")) with
        | none => simp [createNewsItem, hp, hlow, hdate, escapeHtml, htitle]
        | some titleText =>
          cases hpred : prediction.toJsString with
          | none => simp [createNewsItem, hp, hlow, hdate, escapeHtml, htitle, hpred]
          | some predText =>
            cases hconf : (article.prop "confidence").toJsString with
            | none => simp [createNewsItem, hp, hlow, hdate, escapeHtml, htitle, hpred, hconf]
            | some confText =>
              cases hsource : toTextContent (jsOr (article.prop "source") (.str "")) with
              | none =>
                simp [createNewsItem, hp, hlow, hdate, escapeHtml, htitle, hpred, hconf, hsource]
              | some sourceText =>
                cases hlink : linkHtml (article.prop "url") with
                | none =>
                  simp [createNewsItem, hp, hlow, hdate, escapeHtml, htitle, hpred, hconf,
                    hsource, hlink]
                | some link =>
                  exfalso
                  have hpub : (article.prop "published_at").truthy = false ∨
                      ((article.prop "published_at").toJsString).isSome = true := by
                    by_cases ht : (article.prop "published_at").truthy = true
                    · right
                      cases hs : (article.prop "published_at").toJsString with
                      | none =>
                        have := timeAgo_throws E now _ hs
                        simp [publishedDateOf, ht, this] at hdate
                      | some _ => rfl
                    · left
                      simpa using ht
                  have hurl : (article.prop "url").truthy = false ∨
                      (toTextContent (article.prop "url")).isSome = true := by
                    by_cases ht : (article.prop "url").truthy = true
                    · right
                      cases hs : toTextContent (article.prop "url") with
                      | none => simp [linkHtml, ht, escapeHtml, hs] at hlink
                      | some _ => rfl
                    · left
                      simpa using ht
                  have htrue : rendersAsText article = true := by
                    simp only [rendersAsText, Bool.and_eq_true, Bool.or_eq_true,
                      Bool.not_eq_true']
                    exact ⟨⟨⟨⟨by simp [htitle], by simp [hconf]⟩, by simp [hsource]⟩, hpub⟩, hurl⟩
                  rw [htrue] at hr
                  exact absurd hr (by decide)

/-- When every item has a string prediction and fields that convert to text,
`map` returns one fragment per item, the fragment at index `i` being
`createNewsItem` of the item at index `i`. -/
theorem mapNewsItems_returns (E : Engine) (clock : Nat → Int) :
    ∀ (items : List JsVal) (k : Nat),
      (∀ a ∈ items, (∃ p, a.getProp "prediction" = some (.str p)) ∧ rendersAsText a = true) →
      ∃ htmls, mapNewsItems E clock k items = some htmls ∧
        htmls.length = items.length ∧
        ∀ (i : Nat) (a : JsVal), items[i]? = some a →
          ∃ html, htmls[i]? = some html ∧ createNewsItem E (clock (k + i)) a = some html := by
  intro items
  induction items with
  | nil =>
    intro k _
    exact ⟨[], rfl, rfl, by simp⟩
  | cons a rest ih =>
    intro k h
    obtain ⟨⟨p, hp⟩, hr⟩ := h a (List.mem_cons_self a rest)
    obtain ⟨html, hhtml⟩ := createNewsItem_returns E (clock k) a p hp hr
    obtain ⟨htmls, hmap, hlen, hidx⟩ :=
      ih (k + 1) (fun b hb => h b (List.mem_cons_of_mem a hb))
    refine ⟨html :: htmls, ?_, ?_, ?_⟩
    · simp [mapNewsItems, hhtml, hmap]
    · simp [hlen]
    · intro i b hb
      cases i with
      | zero =>
        simp at hb
        subst hb
        exact ⟨html, by simp, by simpa using hhtml⟩
      | succ j =>
        simp at hb
        obtain ⟨h2, hj, hc⟩ := hidx j b hb
        refine ⟨h2, by simpa using hj, ?_⟩
        have e : k + (j + 1) = k + 1 + j := by omega
        rw [e]
        exact hc

/-- The `length` of an array. -/
theorem getProp_arr_length (items : List JsVal) :
    (JsVal.arr items).getProp "length" = some (.num (toString items.length)) := by
  simp [JsVal.getProp, JsVal.nullish, JsVal.prop]

/-- The `try` block of `fetchRealTimeNews` on an array whose items all render. -/
theorem fetchRealTimeNewsTry_array (E : Engine) (clock : Nat → Int) (v : View)
    (status : Nat) (data : JsVal) (items : List JsVal) (htmls : List String)
    (hok : responseOk status = true)
    (hres : data.getProp "results" = some (.arr items))
    (hmap : mapNewsItems E clock 0 items = some htmls) :
    fetchRealTimeNewsTry E clock v (.response status (some data)) =
      (showToast
        { v with
          newsListHtml := if items.isEmpty then noNewsHtml else String.join htmls
          newsCountText := toString items.length ++ " articles analyzed" }
        ("Fetched and analyzed " ++ toString items.length ++ " news articles") "success",
        true) := by
  cases items with
  | nil =>
    simp [fetchRealTimeNewsTry, hok, hres, displayNews, JsVal.truthy, lengthIsZero,
      getProp_arr_length, JsVal.toJsString, updateNewsCount]
  | cons a rest =>
    simp [fetchRealTimeNewsTry, hok, hres, displayNews, JsVal.truthy, lengthIsZero,
      getProp_arr_length, JsVal.toJsString, updateNewsCount, hmap]

/-- C9 (counterexample): an answer of status 200 whose `results` is the array
of the one item `{"prediction": "Real", "confidence": {"toString": 1}}`, an item
carrying a string prediction. The template of `createNewsItem` throws on the
confidence (line 210), `map` ends in `catch`: the list is the "Failed to load
news articles" placeholder, not the item, the count label is not written, and
the one toast appended is the error toast, not a success toast. -/
theorem fetchRealTimeNews_confidence_throws :
    responseOk 200 = true ∧
    (JsVal.obj [("results", .arr [.obj [("prediction", .str "Real"),
      ("confidence", .obj [("toString", .num "1")])]])]).getProp "results" =
      some (.arr [.obj [("prediction", .str "Real"),
        ("confidence", .obj [("toString", .num "1")])]]) ∧
    (JsVal.obj [("prediction", .str "Real"),
      ("confidence", .obj [("toString", .num "1")])]).getProp "prediction" =
      some (.str "Real") ∧
    createNewsItem sampleEngine 0 (.obj [("prediction", .str "Real"),
      ("confidence", .obj [("toString", .num "1")])]) = none ∧
    (fetchRealTimeNews sampleEngine (fun _ => 0) blankView
      (.response 200 (some (.obj [("results", .arr [.obj [("prediction", .str "Real"),
        ("confidence", .obj [("toString", .num "1")])]])])))).newsListHtml = failedNewsHtml ∧
    (fetchRealTimeNews sampleEngine (fun _ => 0) blankView
      (.response 200 (some (.obj [("results", .arr [.obj [("prediction", .str "Real"),
        ("confidence", .obj [("toString", .num "1")])]])])))).newsCountText = "" ∧
    (fetchRealTimeNews sampleEngine (fun _ => 0) blankView
      (.response 200 (some (.obj [("results", .arr [.obj [("prediction", .str "Real"),
        ("confidence", .obj [("toString", .num "1")])]])])))).toasts =
      [{ message := "Error fetching news. Please try again.", kind := "error" }] :=
  ⟨by decide, rfl, rfl, rfl, rfl, rfl, rfl⟩

/-- C9 (amended): for an answer with an ok status whose `results` is an array of
`n` items that each carry a string prediction and on which no conversion to
text made by `createNewsItem` throws, `fetchRealTimeNews` replaces the list by
the fragments `createNewsItem` gives for the items, joined in the order of the
array (by the "No news articles available" placeholder when `n = 0`), whatever
the list held before; it sets the count label to `n`, and appends exactly one
toast, of kind success and naming `n`, so no error toast. -/
theorem fetchRealTimeNews_success (E : Engine) (clock : Nat → Int) (v : View)
    (status : Nat) (data : JsVal) (items : List JsVal)
    (hok : responseOk status = true)
    (hres : data.getProp "results" = some (.arr items))
    (hitems : ∀ a ∈ items,
      (∃ p, a.getProp "prediction" = some (.str p)) ∧ rendersAsText a = true) :
    ∃ htmls : List String,
      htmls.length = items.length ∧
      (∀ (i : Nat) (a : JsVal), items[i]? = some a →
        ∃ html, htmls[i]? = some html ∧ createNewsItem E (clock i) a = some html) ∧
      (fetchRealTimeNews E clock v (.response status (some data))).newsListHtml =
        (if items.isEmpty then noNewsHtml else String.join htmls) ∧
      (fetchRealTimeNews E clock v (.response status (some data))).newsCountText =
        toString items.length ++ " articles analyzed" ∧
      (fetchRealTimeNews E clock v (.response status (some data))).toasts =
        v.toasts ++ [{ message := "Fetched and analyzed " ++ toString items.length
          ++ " news articles", kind := "success" }] := by
  obtain ⟨htmls, hmap, hlen, hidx⟩ := mapNewsItems_returns E clock items 0 hitems
  have htry := fetchRealTimeNewsTry_array E clock (fetchRealTimeNewsStart v).1 status data
    items htmls hok hres hmap
  refine ⟨htmls, hlen, ?_, ?_, ?_, ?_⟩
  · intro i a ha
    simpa using hidx i a ha
  · simp [fetchRealTimeNews, fetchRealTimeNewsResume, htry, showToast]
  · simp [fetchRealTimeNews, fetchRealTimeNewsResume, htry, showToast]
  · simp only [fetchRealTimeNews, fetchRealTimeNewsResume, htry]
    simp [showToast, fetchRealTimeNewsStart]

/-- Instance of `fetchRealTimeNews_success`: status 200 and two items, over a
list that held something else. -/
theorem fetchRealTimeNews_success_witness :
    responseOk 200 = true ∧
    (fetchRealTimeNews sampleEngine (fun _ => 0) { blankView with newsListHtml := "<div>old</div>" }
      (.response 200 (some (.obj [("results", .arr [
        .obj [("prediction", .str "Fake"), ("title", .str "a")],
        .obj [("prediction", .str "Real"), ("title", .str "b")]])])))).newsCountText =
      "2 articles analyzed" := by
  obtain ⟨_, _, _, _, h, _⟩ := fetchRealTimeNews_success sampleEngine (fun _ => 0)
    { blankView with newsListHtml := "<div>old</div>" } 200
    (.obj [("results", .arr [
        .obj [("prediction", .str "Fake"), ("title", .str "a")],
        .obj [("prediction", .str "Real"), ("title", .str "b")]])])
    [.obj [("prediction", .str "Fake"), ("title", .str "a")],
      .obj [("prediction", .str "Real"), ("title", .str "b")]]
    (by decide) rfl
    (by
      intro a ha
      simp at ha
      rcases ha with rfl | rfl
      · exact ⟨⟨"Fake", rfl⟩, rfl⟩
      · exact ⟨⟨"Real", rfl⟩, rfl⟩)
  exact ⟨by decide, h⟩

/-- C10: for an answer with a status outside 200 to 299, whatever the list held
before, `fetchRealTimeNews` leaves the "Failed to load news articles"
placeholder as the whole list, appends exactly one toast, of kind error, and
leaves the count label as it was. -/
theorem fetchRealTimeNews_http_error (E : Engine) (clock : Nat → Int) (v : View)
    (status : Nat) (body : Option JsVal) (hbad : responseOk status = false) :
    (fetchRealTimeNews E clock v (.response status body)).newsListHtml = failedNewsHtml ∧
    (fetchRealTimeNews E clock v (.response status body)).toasts =
      v.toasts ++ [{ message := "Error fetching news. Please try again.", kind := "error" }] ∧
    (fetchRealTimeNews E clock v (.response status body)).newsCountText = v.newsCountText := by
  simp [fetchRealTimeNews, fetchRealTimeNewsResume, fetchRealTimeNewsTry,
    fetchRealTimeNewsStart, hbad, showToast]

/-- Instance of `fetchRealTimeNews_http_error`: status 500 over a list that held
an item and a count label that read "3 articles analyzed". -/
theorem fetchRealTimeNews_http_error_witness :
    responseOk 500 = false ∧
    (fetchRealTimeNews sampleEngine (fun _ => 0)
      { blankView with newsListHtml := "<div>old</div>", newsCountText := "3 articles analyzed" }
      (.response 500 none)).newsListHtml = failedNewsHtml :=
  ⟨by decide,
    (fetchRealTimeNews_http_error sampleEngine (fun _ => 0)
      { blankView with newsListHtml := "<div>old</div>", newsCountText := "3 articles analyzed" }
      500 none (by decide)).1⟩

/-- When the network fails, the status is not ok or the body does not parse,
`analyzeHeadline` resumes into `catch` with the result panel as it was and
appends the one error toast. -/
theorem analyzeHeadlineResume_transport_failure (E : Engine) (v : View) (r : FetchResult)
    (hr : r = .networkError ∨ (∃ status, r = .response status none) ∨
      (∃ status body, r = .response status body ∧ responseOk status = false)) :
    resultPanel (analyzeHeadlineResume E v r) = resultPanel v ∧
    (analyzeHeadlineResume E v r).toasts = v.toasts ++
      [{ message := "Error analyzing headline. Please try again.", kind := "error" }] := by
  rcases hr with rfl | ⟨status, rfl⟩ | ⟨status, body, rfl, hbad⟩
  · simp [analyzeHeadlineResume, analyzeHeadlineTry, showToast, resultPanel]
  · by_cases hok : responseOk status = true <;>
      simp [analyzeHeadlineResume, analyzeHeadlineTry, showToast, resultPanel, hok]
  · simp [analyzeHeadlineResume, analyzeHeadlineTry, showToast, resultPanel, hbad]

/-- When the body has no string `prediction`, `analyzeHeadline` resumes into
`catch` after `displayAnalysisResult` has set the panel to `block`: one error
toast, the other panel fields as they were. -/
theorem analyzeHeadlineResume_missing_prediction (E : Engine) (v : View) (status : Nat)
    (data : JsVal) (hok : responseOk status = true)
    (hp : ∀ p, data.getProp "prediction" ≠ some (.str p)) :
    (analyzeHeadlineResume E v (.response status (some data))).analysisResultDisplay = "block" ∧
    resultPanel (analyzeHeadlineResume E v (.response status (some data))) =
      resultPanel { v with analysisResultDisplay := "block" } ∧
    (analyzeHeadlineResume E v (.response status (some data))).toasts = v.toasts ++
      [{ message := "Error analyzing headline. Please try again.", kind := "error" }] := by
  cases hget : data.getProp "prediction" with
  | none =>
    simp [analyzeHeadlineResume, analyzeHeadlineTry, displayAnalysisResult, hok, hget,
      showToast, resultPanel]
  | some prediction =>
    cases prediction with
    | str p => exact absurd hget (hp p)
    | undefined | null | bool _ | num _ | arr _ | obj _ =>
      simp [analyzeHeadlineResume, analyzeHeadlineTry, displayAnalysisResult, hok, hget,
        showToast, resultPanel, callToLowerCase]

/-- When the confidence of the body does not convert to text, `analyzeHeadline`
resumes into `catch` after the panel was shown and the badge rewritten (lines
132 to 137): over an earlier "Real" result, an answer of status 200 with
prediction "Fake" and confidence `{"toString": 1}` leaves the badge of the new
answer beside the confidence text and the bar of the old one. -/
theorem analyzeHeadlineResume_confidence_throws :
    resultPanel (analyzeHeadlineResume sampleEngine
      { blankView with
        analysisResultDisplay := "block"
        predictionBadgeText := "Real"
        predictionBadgeClass := "badge real"
        confidenceScoreText := "90% confidence"
        analyzedHeadlineText := "old"
        confidenceFillWidth := "90%"
        confidenceFillBackground := realGradient }
      (.response 200 (some (.obj [("prediction", .str "Fake"),
        ("confidence", .obj [("toString", .num "1")]), ("headline", .str "new")])))) =
      ("block", "Fake", "badge fake", "90% confidence", "old", "90%", realGradient) :=
  rfl

/-! ### The button guard on the paths that pass through the buttons -/

/-- Removing the element at an index from a list lowers the count of a
predicate by one when the element satisfies it, and leaves it otherwise. -/
theorem filter_length_eraseIdx (p : Request → Bool) :
    ∀ (l : List Request) (i : Nat) (x : Request), l[i]? = some x →
      ((l.eraseIdx i).filter p).length + (if p x then 1 else 0) = (l.filter p).length := by
  intro l
  induction l with
  | nil =>
    intro i x h
    simp at h
  | cons y rest ih =>
    intro i x h
    cases i with
    | zero =>
      simp at h
      subst h
      by_cases hy : p y = true <;> simp [List.eraseIdx, List.filter, hy]
    | succ j =>
      simp at h
      have := ih j x (by simpa using h)
      by_cases hy : p y = true
      · simp [List.eraseIdx, List.filter, hy]
        omega
      · simp [List.eraseIdx, List.filter, hy]
        omega

/-- The method `displayAnalysisResult` does not touch the fetch button. -/
theorem displayAnalysisResult_fetchNewsBtn (E : Engine) (v : View) (data : JsVal) :
    (displayAnalysisResult E v data).1.fetchNewsBtnDisabled = v.fetchNewsBtnDisabled := by
  unfold displayAnalysisResult
  repeat' first | rfl | split

/-- Nothing in `analyzeHeadline` after its `await` touches the fetch button. -/
theorem analyzeHeadlineResume_fetchNewsBtn (E : Engine) (v : View) (r : FetchResult) :
    (analyzeHeadlineResume E v r).fetchNewsBtnDisabled = v.fetchNewsBtnDisabled := by
  have hd := displayAnalysisResult_fetchNewsBtn E v
  unfold analyzeHeadlineResume analyzeHeadlineTry
  cases r with
  | networkError => simp [showToast]
  | response status body =>
    cases body with
    | none => by_cases hok : responseOk status = true <;> simp [showToast, hok]
    | some data =>
      by_cases hok : responseOk status = true
      · by_cases hshown : (displayAnalysisResult E v data).2 = true <;>
          simp [showToast, hok, hshown, hd]
      · simp [showToast, hok]

/-- The method `displayNews` does not touch the analyze button. -/
theorem displayNews_analyzeBtn (E : Engine) (clock : Nat → Int) (v : View) (articles : JsVal) :
    (displayNews E clock v articles).1.analyzeBtnDisabled = v.analyzeBtnDisabled := by
  unfold displayNews
  split
  · rfl
  · split
    · split <;> rfl
    · rfl

/-- Nothing in `fetchRealTimeNews` after its `await` touches the analyze
button. -/
theorem fetchRealTimeNewsResume_analyzeBtn (E : Engine) (clock : Nat → Int) (v : View)
    (r : FetchResult) :
    (fetchRealTimeNewsResume E clock v r).analyzeBtnDisabled = v.analyzeBtnDisabled := by
  have hd := displayNews_analyzeBtn E clock v
  unfold fetchRealTimeNewsResume fetchRealTimeNewsTry
  cases r with
  | networkError => simp [showToast]
  | response status body =>
    cases body with
    | none => by_cases hok : responseOk status = true <;> simp [showToast, hok]
    | some data =>
      by_cases hok : responseOk status = true
      · cases hget : data.getProp "results" with
        | none => simp [showToast, hok, hget]
        | some results =>
          by_cases hshown : (displayNews E clock v results).2 = true
          · cases hlen : results.getProp "length" with
            | none => simp [showToast, hok, hget, hshown, hlen, hd]
            | some len =>
              cases htext : len.toJsString <;>
                simp [showToast, hok, hget, hshown, hlen, updateNewsCount, htext, hd]
          · simp [showToast, hok, hget, hshown, hd]
      · simp [showToast, hok]

/-- A turn that passes through the buttons keeps the button guard. -/
theorem step_buttonGuard (E : Engine) (a b : App) (e : Event)
    (hpass : e.bypassesButton = false) (hstep : step E a e = some b) (hinv : ButtonGuard a) :
    ButtonGuard b := by
  obtain ⟨hp, hl⟩ := hinv
  cases e with
  | input text =>
    simp only [step, Option.some.injEq] at hstep
    subst hstep
    exact ⟨hp, hl⟩
  | clickAnalyze =>
    simp only [step] at hstep
    by_cases hdis : a.view.analyzeBtnDisabled = true
    · simp [hdis] at hstep
    · simp only [hdis, Bool.false_eq_true, if_false, Option.some.injEq] at hstep
      subst hstep
      have h0 : outstandingPredict a = 0 := by
        rcases hp with h | ⟨_, h⟩
        · exact h
        · exact absurd h hdis
      unfold outstandingPredict at h0
      by_cases hblank : jsTrim a.view.headlineInputValue = ""
      · have hb : callAnalyzeHeadline a =
            { a with view := showToast a.view "Please enter a headline to analyze" "error" } := by
          simp [callAnalyzeHeadline, analyzeHeadlineStart, hblank]
        rw [hb]
        exact ⟨hp, hl⟩
      · refine ⟨Or.inr ?_, ?_⟩
        · simp [callAnalyzeHeadline, analyzeHeadlineStart, hblank, outstandingPredict, h0]
        · simpa [callAnalyzeHeadline, analyzeHeadlineStart, hblank, outstandingAnalyzeLive]
            using hl
  | clickFetch =>
    simp only [step] at hstep
    by_cases hdis : a.view.fetchNewsBtnDisabled = true
    · simp [hdis] at hstep
    · simp only [hdis, Bool.false_eq_true, if_false, Option.some.injEq] at hstep
      subst hstep
      have h0 : outstandingAnalyzeLive a = 0 := by
        rcases hl with h | ⟨_, h⟩
        · exact h
        · exact absurd h hdis
      unfold outstandingAnalyzeLive at h0
      refine ⟨?_, Or.inr ?_⟩
      · simpa [callFetchRealTimeNews, fetchRealTimeNewsStart, outstandingPredict] using hp
      · simp [callFetchRealTimeNews, fetchRealTimeNewsStart, outstandingAnalyzeLive, h0]
  | keydown key shiftKey =>
    have hne : ¬ (key = "Enter" ∧ shiftKey = false) := by
      simpa [Event.bypassesButton] using hpass
    simp only [step, hne, if_false, Option.some.injEq] at hstep
    subst hstep
    exact ⟨hp, hl⟩
  | loadTimer => simp [Event.bypassesButton] at hpass
  | answer i r clock =>
    simp only [step] at hstep
    cases hget : a.inFlight[i]? with
    | none => simp [hget] at hstep
    | some req =>
      cases req with
      | predict headline =>
        simp only [hget, Option.some.injEq] at hstep
        subst hstep
        have hcp := filter_length_eraseIdx (fun r => match r with
          | .predict _ => true
          | .analyzeLive => false) a.inFlight i _ hget
        have hcl := filter_length_eraseIdx (fun r => match r with
          | .predict _ => false
          | .analyzeLive => true) a.inFlight i _ hget
        simp only [if_true, Bool.false_eq_true, if_false, Nat.add_zero] at hcp hcl
        refine ⟨Or.inl ?_, ?_⟩
        · unfold outstandingPredict at hp ⊢
          simp only
          omega
        · unfold outstandingAnalyzeLive at hl ⊢
          simp only [analyzeHeadlineResume_fetchNewsBtn, hcl]
          exact hl
      | analyzeLive =>
        simp only [hget, Option.some.injEq] at hstep
        subst hstep
        have hcp := filter_length_eraseIdx (fun r => match r with
          | .predict _ => true
          | .analyzeLive => false) a.inFlight i _ hget
        have hcl := filter_length_eraseIdx (fun r => match r with
          | .predict _ => false
          | .analyzeLive => true) a.inFlight i _ hget
        simp only [if_true, Bool.false_eq_true, if_false, Nat.add_zero] at hcp hcl
        refine ⟨?_, Or.inl ?_⟩
        · unfold outstandingPredict at hp ⊢
          simp only [fetchRealTimeNewsResume_analyzeBtn, hcp]
          exact hp
        · unfold outstandingAnalyzeLive at hl ⊢
          simp only
          omega

/-- As long as no Enter key and no load timer occurs, every state reached from
the constructor has at most one request of each operation unanswered. -/
theorem run_buttonGuard (E : Engine) :
    ∀ (events : List Event) (a b : App), (∀ e ∈ events, e.bypassesButton = false) →
      ButtonGuard a → run E a events = some b →
      outstandingPredict b ≤ 1 ∧ outstandingAnalyzeLive b ≤ 1 := by
  intro events
  induction events with
  | nil =>
    intro a b _ hinv hrun
    simp only [run, Option.some.injEq] at hrun
    subst hrun
    obtain ⟨hp, hl⟩ := hinv
    constructor
    · rcases hp with h | ⟨h, _⟩ <;> omega
    · rcases hl with h | ⟨h, _⟩ <;> omega
  | cons e rest ih =>
    intro a b hpass hinv hrun
    simp only [run] at hrun
    cases hstep : step E a e with
    | none => simp [hstep] at hrun
    | some a1 =>
      simp only [hstep] at hrun
      exact ih a1 b (fun e1 he1 => hpass e1 (List.mem_cons_of_mem e he1))
        (step_buttonGuard E a a1 e (hpass e (List.mem_cons_self e rest)) hstep hinv) hrun

/-- The state the constructor leaves satisfies the button guard. -/
theorem construct_buttonGuard (page : View) : ButtonGuard (construct page) :=
  ⟨Or.inl rfl, Or.inl rfl⟩

/-! ### What `escapeHtml` does and does not neutralise -/

/-- The serialisation of one character holds no angle bracket. -/
theorem escapeChar_no_angle (c : Char) :
    '<' ∉ (escapeChar c).data ∧ '>' ∉ (escapeChar c).data := by
  unfold escapeChar
  split
  · decide
  · split
    · decide
    · split
      · decide
      · split
        · decide
        · rename_i h1 h2 _
          have hs : (String.singleton c).data = [c] := rfl
          rw [hs]
          simp only [List.mem_singleton]
          exact ⟨fun h => h1 h.symm, fun h => h2 h.symm⟩

/-- The serialisation of a text holds no angle bracket. -/
theorem escapeText_no_angle (s : String) :
    '<' ∉ (escapeText s).data ∧ '>' ∉ (escapeText s).data := by
  simp only [escapeText, String.data_join, List.mem_flatten, List.mem_map,
    not_exists, not_and]
  constructor
  · rintro l ⟨t, ⟨c, _, rfl⟩, rfl⟩
    exact (escapeChar_no_angle c).1
  · rintro l ⟨t, ⟨c, _, rfl⟩, rfl⟩
    exact (escapeChar_no_angle c).2

/-- The output of `escapeHtml` holds no angle bracket: the fields that pass
through it (title or headline, source, url) cannot open or close a tag. -/
theorem escapeHtml_no_angle (text : JsVal) (html : String)
    (h : escapeHtml text = some html) : '<' ∉ html.data ∧ '>' ∉ html.data := by
  unfold escapeHtml at h
  cases hc : toTextContent text with
  | none => simp [hc] at h
  | some t =>
    simp only [hc, Option.map_some', Option.some.injEq] at h
    subst h
    exact escapeText_no_angle t

/-- A text without `&`, `<`, `>` and no-break space passes through the
serialisation unchanged; every `javascript:` url made of such characters
does. -/
theorem escapeText_plain (s : String)
    (h : ∀ c ∈ s.data, c ≠ '&' ∧ c ≠ '<' ∧ c ≠ '>' ∧ c.toNat ≠ 160) :
    escapeText s = s := by
  apply String.ext
  simp only [escapeText, String.data_join]
  generalize s.data = l at h
  induction l with
  | nil => rfl
  | cons c rest ih =>
    obtain ⟨h1, h2, h3, h4⟩ := h c (List.mem_cons_self c rest)
    have hs : (String.singleton c).data = [c] := rfl
    have hc : (escapeChar c).data = [c] := by
      simp [escapeChar, h1, h2, h3, h4, hs]
    simp only [List.map_cons, List.flatten_cons, hc, List.singleton_append, List.cons.injEq,
      true_and]
    exact ih (fun d hd => h d (List.mem_cons_of_mem c hd))

/-- For every non-empty string url the link block is an anchor whose `href` is
the url after `escapeHtml`, whatever its scheme. -/
theorem linkHtml_anchor (u : String) (hu : u ≠ "") :
    linkHtml (.str u) =
      some ("\n                    <div style=\"margin-top: 0.5rem;\">\n                        <a href=\""
      ++ escapeText u
      ++ "\" target=\"_blank\" rel=\"noopener noreferrer\" style=\"color: #667eea; text-decoration: none; font-size: 0.9rem;\">\n                            <i class=\"fas fa-external-link-alt\"></i> Read full article\n                        </a>\n                    </div>\n                ") := by
  simp [linkHtml, JsVal.truthy, hu, escapeHtml, toTextContent, JsVal.toJsString]

/-- C4 (evaluation at the failing input): on the blank page with the headline
"x", an answer of status 200 whose body is the empty object ends in the failure
branch with its one error toast, and the result panel, hidden before, is
shown. -/
theorem analyzeHeadline_malformed_body_shows_panel :
    ({ blankView with headlineInputValue := "x" } : View).analysisResultDisplay = "none" ∧
    (analyzeHeadline sampleEngine { blankView with headlineInputValue := "x" }
      (.response 200 (some (.obj [])))).analysisResultDisplay = "block" ∧
    (analyzeHeadline sampleEngine { blankView with headlineInputValue := "x" }
      (.response 200 (some (.obj [])))).toasts =
      [{ message := "Error analyzing headline. Please try again.", kind := "error" }] :=
  ⟨rfl, rfl, rfl⟩

/-- C5 (evaluation at the failing input): from the blank page, typing "x" and
pressing Enter twice leaves two `/predict` requests unanswered; clicking the
fetch button and then letting the load timer fire leaves two `/analyze-live`
requests unanswered. -/
theorem reentry_through_enter_and_timer :
    (∃ a, run sampleEngine (construct blankView)
        [.input "x", .keydown "Enter" false, .keydown "Enter" false] = some a ∧
      outstandingPredict a = 2 ∧ a.inFlight = [.predict "x", .predict "x"]) ∧
    (∃ a, run sampleEngine (construct blankView) [.clickFetch, .loadTimer] = some a ∧
      outstandingAnalyzeLive a = 2 ∧ a.inFlight = [.analyzeLive, .analyzeLive]) :=
  ⟨⟨_, rfl, rfl, rfl⟩, ⟨_, rfl, rfl, rfl⟩⟩

/-- C7 (evaluation at the failing input): for an article whose url is
`javascript:alert(1)`, the fragment of `createNewsItem` holds an anchor whose
`href` is that url. -/
theorem createNewsItem_javascript_href :
    ∃ html, createNewsItem sampleEngine 0
        (.obj [("prediction", .str "Real"), ("url", .str "javascript:alert(1)")]) = some html ∧
      occursIn "<a href=\"javascript:alert(1)\" target=\"_blank\"" html = true :=
  ⟨_, rfl, by decide⟩

/-- C8 (evaluation at the failing input): for an article whose prediction is
`<script>x</script>`, the fragment of `createNewsItem` holds that text as it
is, tags included, inside the badge. -/
theorem createNewsItem_raw_prediction :
    ∃ html, createNewsItem sampleEngine 0 (.obj [("prediction", .str "<script>x</script>")])
        = some html ∧
      occursIn "<span class=\"badge real\"><script>x</script></span>" html = true :=
  ⟨_, rfl, by decide⟩

end FakeNews
